import Mathlib

/- Shallow embedding of the browser process supervision subsystem of
   mcp-whatsapp-web, translated from:
     src/utils/browser-process-manager.ts  (BrowserProcessManager)
     src/utils/cleanup-browsers.ts         (manual sweep tool)
     src/services/whatsapp.ts              (WhatsAppService.initialize)
     src/index.ts                          (gracefulShutdown)
   Machine integers are modelled as Nat (pids and millisecond timestamps are
   small nonnegative JS integers; Nat subtraction truncates at 0 exactly where
   the JS subtraction would be negative and the only use is a strict comparison
   against a positive threshold, which agrees in both models).  Fallible
   external calls (child_process exec) are modelled as oracles returning
   Except; probe and kill outcomes and the clock are fixed oracle parameters,
   matching the claims, which quantify over a fixed assignment of outcomes. -/

namespace McpWhatsapp

/-- Entry of the persisted pid registry, from the BrowserProcess interface in
src/utils/browser-process-manager.ts (pid, startTime, serverInstanceId). -/
structure BrowserProcess where
  pid : Nat
  startTime : Nat
  serverInstanceId : String
deriving DecidableEq, Repr

/-- The backing store for the registry file .chrome-pids.json: the file may be
absent, present but unparsable JSON, or hold a parsed list of entries. -/
inductive Store where
  | absent : Store
  | corrupt : Store
  | content : List BrowserProcess → Store
deriving DecidableEq, Repr

/-- BrowserProcessManager.readProcesses: returns the parsed array when the
file exists and parses; an absent file falls through to the final return of
an empty list, and a JSON parse error is caught and logged, also returning
the empty list. -/
def readProcesses : Store → List BrowserProcess
  | Store.absent => []
  | Store.corrupt => []
  | Store.content ps => ps

/-- BrowserProcessManager.saveProcesses: overwrites the file with the given
list; a write failure (writeOk = false) is caught and logged, leaving the
previous store in place, and is never rethrown. -/
def saveProcesses (writeOk : Bool) (store : Store) (ps : List BrowserProcess) : Store :=
  if writeOk then Store.content ps else store

/-- Helper mirroring the body of BrowserProcessManager.registerProcess after
the findIndex call: the first entry whose pid matches is replaced with the
fresh entry, everything else is kept; when no entry matches, the fresh entry
is pushed at the end. -/
def upsertProcess (pid now : Nat) (self : String) : List BrowserProcess → List BrowserProcess
  | [] => [⟨pid, now, self⟩]
  | p :: rest =>
      if p.pid == pid then ⟨pid, now, self⟩ :: rest
      else p :: upsertProcess pid now self rest

/-- BrowserProcessManager.registerProcess: a falsy pid (0 for a JS number in
this embedding) is rejected with a warning before any read or write; otherwise
read, replace the existing entry for this pid (new startTime, this instance
as owner) or push a new one, and save. -/
def registerProcess (self : String) (now : Nat) (writeOk : Bool)
    (store : Store) (pid : Nat) : Store :=
  if pid == 0 then store
  else
    let processes := readProcesses store
    saveProcesses writeOk store (upsertProcess pid now self processes)

/-- BrowserProcessManager.unregisterProcess: a falsy pid is rejected with a
warning before any read or write; otherwise read, filter out the entries with
this pid, and save only if the length changed. -/
def unregisterProcess (writeOk : Bool) (store : Store) (pid : Nat) : Store :=
  if pid == 0 then store
  else
    let processes := readProcesses store
    let filteredProcesses := processes.filter (fun p => p.pid != pid)
    if processes.length != filteredProcesses.length then
      saveProcesses writeOk store filteredProcesses
    else store

/-- The orphan test inside cleanupOrphanedProcesses: not from the current
server instance AND older than the fixed 10 minute threshold
(10 * 60 * 1000 ms). -/
def orphanBool (self : String) (now : Nat) (p : BrowserProcess) : Bool :=
  !(p.serverInstanceId == self) && decide (now - p.startTime > 10 * 60 * 1000)

/-- The loop of BrowserProcessManager.cleanupOrphanedProcesses over the read
list, returning the validProcesses list that is written back together with
the list of pids for which a kill was attempted, in loop order.  A dead entry
(probe false) is skipped with no kill; a running orphaned entry has a kill
attempted and is kept only when the kill fails; any other running entry is
kept. -/
def cleanupScan (self : String) (now : Nat) (isRunning killOk : Nat → Bool) :
    List BrowserProcess → List BrowserProcess × List Nat
  | [] => ([], [])
  | p :: rest =>
      let r := cleanupScan self now isRunning killOk rest
      if isRunning p.pid then
        if orphanBool self now p then
          if killOk p.pid then (r.1, p.pid :: r.2)
          else (p :: r.1, p.pid :: r.2)
        else (p :: r.1, r.2)
      else r

/-- BrowserProcessManager.cleanupOrphanedProcesses: read the registry, run the
loop, save the surviving list, and report the pids for which a kill was
attempted. -/
def cleanupOrphanedProcesses (self : String) (now : Nat)
    (isRunning killOk : Nat → Bool) (writeOk : Bool) (store : Store) :
    Store × List Nat :=
  let processes := readProcesses store
  let r := cleanupScan self now isRunning killOk processes
  (saveProcesses writeOk store r.1, r.2)

/-- Declarative keep predicate for one reclaim pass: an entry survives iff its
probe says running and, when it is classified orphaned, its kill failed. -/
def keepBool (self : String) (now : Nat) (isRunning killOk : Nat → Bool)
    (p : BrowserProcess) : Bool :=
  isRunning p.pid && (!(orphanBool self now p) || !(killOk p.pid))

/-! External command execution is modelled as an oracle
`exec : String → Except Unit String` mapping the command line to either its
stdout or a failure (nonzero exit of the child, as rejected by execAsync). -/

/-- The probe command built by BrowserProcessManager.isProcessRunning on
Unix-like platforms. -/
def psProbeCmd (pid : Nat) : String :=
  "ps -p " ++ toString pid ++ " -o pid="

/-- The probe command built by BrowserProcessManager.isProcessRunning on
win32. -/
def tasklistCmd (pid : Nat) : String :=
  "tasklist /FI \"PID eq " ++ toString pid ++ "\" /NH"

/-- The kill command built by BrowserProcessManager.killProcess on Unix-like
platforms. -/
def killCmd (pid : Nat) : String :=
  "kill -9 " ++ toString pid

/-- Character list prefix test, used to embed the JS String.includes. -/
def charsMatchAt : List Char → List Char → Bool
  | [], _ => true
  | _ :: _, [] => false
  | a :: xs, b :: ys => a == b && charsMatchAt xs ys

/-- Substring occurrence over character lists. -/
def charsHaveSub (pat : List Char) : List Char → Bool
  | [] => pat.isEmpty
  | c :: rest => charsMatchAt pat (c :: rest) || charsHaveSub pat rest

/-- JS String.includes: pat occurs somewhere inside s. -/
def strIncludes (s pat : String) : Bool :=
  charsHaveSub pat.data s.data

/-- JS String.toLowerCase, characterwise. -/
def strToLower (s : String) : String :=
  String.mk (s.data.map Char.toLower)

/-- BrowserProcessManager.isProcessRunning, Unix branch: run ps for the pid
and report true exactly when the command succeeds; the rejection raised for a
missing pid (or any other probe error) is caught and reported as false. -/
def isProcessRunningUnix (exec : String → Except Unit String) (pid : Nat) : Bool :=
  match exec (psProbeCmd pid) with
  | Except.ok _ => true
  | Except.error _ => false

/-- BrowserProcessManager.isProcessRunning, win32 branch: run tasklist with a
pid filter and report whether its stdout mentions the pid; an exec error is
caught and reported as false. -/
def isProcessRunningWin (exec : String → Except Unit String) (pid : Nat) : Bool :=
  match exec (tasklistCmd pid) with
  | Except.ok stdout => strIncludes stdout (toString pid)
  | Except.error _ => false

/-- BrowserProcessManager.killProcess, Unix branch: run kill -9 and report
whether the command succeeded; an exec error is caught, logged and reported
as false, never rethrown. -/
def killProcessUnix (exec : String → Except Unit String) (pid : Nat) : Bool :=
  match exec (killCmd pid) with
  | Except.ok _ => true
  | Except.error _ => false

/-! The manual sweep tool, src/utils/cleanup-browsers.ts. -/

/-- One host process enumerated by findChromeBrowsers: pid and the full
command line. -/
structure ChromeProcess where
  pid : Nat
  command : String
deriving DecidableEq, Repr

/-- The fixed heuristic signature substrings from
identifyWhatsAppChromeBrowsers. -/
def whatsAppIndicators : List String :=
  ["whatsapp", "puppeteer", "headless", "user-data-dir=", "whatsapp-sessions"]

/-- identifyWhatsAppChromeBrowsers: keep exactly the processes whose
lowercased command line contains at least one of the heuristic signature
substrings. -/
def identifyWhatsAppChromeBrowsers (processes : List ChromeProcess) :
    List ChromeProcess :=
  processes.filter (fun p =>
    whatsAppIndicators.any (fun indicator =>
      strIncludes (strToLower p.command) indicator))

/-- The confirmation gate of cleanupOrphanedBrowsers: with no candidates the
function returns early; attached to a TTY it kills only on a confirming
response (already trimmed and lowercased, as in the source); detached from a
TTY it proceeds over all candidates.  The returned list is exactly the list
the kill loop iterates over. -/
def sweepKillList (processes : List ChromeProcess) (isTTY : Bool)
    (response : String) : List ChromeProcess :=
  let whatsAppChromeProcesses := identifyWhatsAppChromeBrowsers processes
  if whatsAppChromeProcesses.length == 0 then []
  else if isTTY && !(response == "y" || response == "yes") then []
  else whatsAppChromeProcesses

/-- The kill loop of cleanupOrphanedBrowsers: for each confirmed candidate it
awaits browserManager.killProcess and then increments killedCount.  The
boolean returned by killProcess is not inspected, and killProcess catches its
own errors, so the try block never throws and the increment runs for every
candidate. -/
def sweepKilledCount (exec : String → Except Unit String)
    (targets : List ChromeProcess) : Nat :=
  targets.foldl
    (fun killedCount p =>
      let _killed := killProcessUnix exec p.pid
      killedCount + 1)
    0

/-- The count the claim describes: candidates whose kill command actually
succeeded.  Stated from the words of the spec and claim, to be compared with
sweepKilledCount. -/
def claimedKilledCount (exec : String → Except Unit String)
    (targets : List ChromeProcess) : Nat :=
  (targets.filter (fun p => killProcessUnix exec p.pid)).length

/-! Shutdown coordination, src/index.ts.  Execution is single threaded and
cooperative; the guard of gracefulShutdown reads and sets the module level
isShuttingDown flag with no await between the read and the write, so the
guard region is atomic and concurrently delivered signals are processed as a
sequence of calls. -/

/-- Observable state of the shutdown path: the module level isShuttingDown
flag and how many times the teardown sequence (server shutdown: backend
destroy, pid unregistration, final reclaim pass) has been started. -/
structure ShutdownState where
  isShuttingDown : Bool
  teardownRuns : Nat
deriving DecidableEq, Repr

/-- gracefulShutdown: when the flag is already set, log and return
immediately with no state change; otherwise set the flag and run the teardown
sequence once.  Errors inside the teardown are caught (followed by a best
effort reclaim pass), so the function never throws in either branch. -/
def gracefulShutdown (s : ShutdownState) : ShutdownState :=
  if s.isShuttingDown then s
  else { isShuttingDown := true, teardownRuns := s.teardownRuns + 1 }

/-- n successive shutdown signals. -/
def signalTimes : Nat → ShutdownState → ShutdownState
  | 0, s => s
  | n + 1, s => signalTimes n (gracefulShutdown s)

/-! Session start, WhatsAppService.initialize in src/services/whatsapp.ts. -/

/-- Effects performed by one call of WhatsAppService.initialize, in order:
the pre-start reclaim pass, the backend client initialize, and the
registration of the discovered browser pid. -/
inductive InitEffect where
  | reclaim : InitEffect
  | backendInit : InitEffect
  | register : Nat → InitEffect
deriving DecidableEq, Repr

/-- State of the WhatsAppService that the initialize path touches: the
isInitialized readiness flag (set by the ready event, cleared on disconnect)
and the persisted registry store. -/
structure ServiceState where
  isInitialized : Bool
  store : Store
deriving DecidableEq, Repr

/-- Result of one initialize call: the resulting service state, whether the
call threw (backend initialize failure is rethrown after the reclaim pass
already ran), and the effects performed. -/
structure InitResult where
  state : ServiceState
  threw : Bool
  effects : List InitEffect
deriving DecidableEq, Repr

/-- WhatsAppService.initialize (the name is reserved in this development):
when isInitialized is already true, log a warning and return at once, with no
reclaim pass, no backend initialize, no registration and no registry change.
Otherwise run cleanupOrphanedProcesses, then the backend initialize
(backendOk false models its failure, which is logged and rethrown), then on
success discover the browser pid best effort and register it when known. -/
def serviceInit (self : String) (now : Nat) (isRunning killOk : Nat → Bool)
    (backendOk : Bool) (discoveredPid : Option Nat) (s : ServiceState) :
    InitResult :=
  if s.isInitialized then { state := s, threw := false, effects := [] }
  else
    let store1 := (cleanupOrphanedProcesses self now isRunning killOk true s.store).1
    if backendOk then
      match discoveredPid with
      | some pid =>
          { state := { s with store := registerProcess self now true store1 pid }
            threw := false
            effects := [InitEffect.reclaim, InitEffect.backendInit, InitEffect.register pid] }
      | none =>
          { state := { s with store := store1 }
            threw := false
            effects := [InitEffect.reclaim, InitEffect.backendInit] }
    else
      { state := { s with store := store1 }
        threw := true
        effects := [InitEffect.reclaim, InitEffect.backendInit] }

/-! Replay semantics for register and unregister sequences, for the
functional correctness claim about the registry. -/

/-- One external call to the registry: register carries the Date.now()
timestamp observed during the call. -/
inductive RegOp where
  | register : Nat → Nat → RegOp
  | unregister : Nat → RegOp
deriving DecidableEq, Repr

/-- The process id an operation is keyed by. -/
def opPid : RegOp → Nat
  | RegOp.register pid _ => pid
  | RegOp.unregister pid => pid

/-- Apply one registry call to the store (writes succeed). -/
def applyOp (self : String) (store : Store) : RegOp → Store
  | RegOp.register pid now => registerProcess self now true store pid
  | RegOp.unregister pid => unregisterProcess true store pid

/-- Apply a sequence of registry calls in order. -/
def applyOps (self : String) : Store → List RegOp → Store
  | store, [] => store
  | store, op :: rest => applyOps self (applyOp self store op) rest

/-- View of a registry list as a finite map keyed by pid: the metadata
(startTime, ownerInstanceId) of the first entry with the given pid. -/
def lookupView (ps : List BrowserProcess) (pid : Nat) : Option (Nat × String) :=
  (ps.find? (fun p => p.pid == pid)).map (fun p => (p.startTime, p.serverInstanceId))

/-- The registry invariant of the data model: no two entries share a pid. -/
def nodupKeys (ps : List BrowserProcess) : Prop :=
  (ps.map (fun p => p.pid)).Nodup

instance (ps : List BrowserProcess) : Decidable (nodupKeys ps) := by
  unfold nodupKeys
  infer_instance

/-- Mathematical replay of the claim, on finite maps: register is an upsert
of (startTime, owner), unregister removes the key. -/
def specApplyOp (self : String) (m : Nat → Option (Nat × String)) :
    RegOp → Nat → Option (Nat × String)
  | RegOp.register pid now => fun q => if q = pid then some (now, self) else m q
  | RegOp.unregister pid => fun q => if q = pid then none else m q

/-- Mathematical replay of a call sequence on finite maps. -/
def specReplay (self : String) :
    List RegOp → (Nat → Option (Nat × String)) → Nat → Option (Nat × String)
  | [], m => m
  | op :: rest, m => specReplay self rest (specApplyOp self m op)

/-! Concrete inputs used by the witnesses. -/

/-- A registry entry owned by another instance, 20 minutes old at time
now = 1300000. -/
def exForeignOld : BrowserProcess := ⟨111, 100000, "A"⟩

/-- A registry entry owned by the current instance B. -/
def exOwnEntry : BrowserProcess := ⟨222, 100000, "B"⟩

/-- A concrete initial registry. -/
def exInit : List BrowserProcess := [⟨7, 50, "A"⟩, ⟨8, 60, "B"⟩]

/-- A concrete register and unregister sequence with nonzero pids. -/
def exOps : List RegOp :=
  [RegOp.register 9 100, RegOp.register 7 200, RegOp.unregister 8,
   RegOp.unregister 12, RegOp.register 9 300]

/-- A chrome renderer process whose command line matches none of the
heuristic signatures. -/
def exChrome : ChromeProcess := ⟨321, "/opt/chrome --type=renderer --lang=en-US"⟩

theorem cleanupScan_fst (self : String) (now : Nat) (isRunning killOk : Nat → Bool)
    (ps : List BrowserProcess) :
    (cleanupScan self now isRunning killOk ps).1
      = ps.filter (keepBool self now isRunning killOk) := by
  induction ps with
  | nil => rfl
  | cons p rest ih =>
      simp only [cleanupScan, List.filter, keepBool]
      cases hrun : isRunning p.pid with
      | false => simpa using ih
      | true =>
          cases horph : orphanBool self now p with
          | false => simp [ih]
          | true =>
              cases hkill : killOk p.pid with
              | false => simp [ih]
              | true => simpa using ih

theorem cleanupScan_snd (self : String) (now : Nat) (isRunning killOk : Nat → Bool)
    (ps : List BrowserProcess) :
    (cleanupScan self now isRunning killOk ps).2
      = (ps.filter (fun p => isRunning p.pid && orphanBool self now p)).map
          (fun p => p.pid) := by
  induction ps with
  | nil => rfl
  | cons p rest ih =>
      simp only [cleanupScan, List.filter]
      cases hrun : isRunning p.pid with
      | false => simpa using ih
      | true =>
          cases horph : orphanBool self now p with
          | false => simpa using ih
          | true =>
              cases hkill : killOk p.pid with
              | false => simp [ih]
              | true => simp [ih]

theorem upsert_lookup (pid now : Nat) (self : String) (ps : List BrowserProcess)
    (q : Nat) :
    lookupView (upsertProcess pid now self ps) q
      = if q = pid then some (now, self) else lookupView ps q := by
  induction ps with
  | nil =>
      by_cases hq : q = pid <;> simp [upsertProcess, lookupView, hq, Ne.symm]
  | cons p rest ih =>
      by_cases hp : p.pid = pid
      · by_cases hq : q = pid
        · simp [upsertProcess, hp, lookupView, hq]
        · simp [upsertProcess, hp, lookupView, hq, Ne.symm hq,
            fun h => hq (hp ▸ h : q = pid)]
      · by_cases hq : q = p.pid
        · have hqpid : q ≠ pid := fun h => hp (hq ▸ h : p.pid = pid)
          simp [upsertProcess, hp, lookupView, hq.symm, hqpid]
        · by_cases hq2 : q = pid
          · simpa [upsertProcess, hp, lookupView, Ne.symm hq, hq2] using ih
          · simpa [upsertProcess, hp, lookupView, Ne.symm hq, hq2] using ih

theorem upsert_keys (pid now : Nat) (self : String) (ps : List BrowserProcess)
    (q : Nat) (hq : q ∈ (upsertProcess pid now self ps).map (fun p => p.pid)) :
    q = pid ∨ q ∈ ps.map (fun p => p.pid) := by
  induction ps with
  | nil => simpa [upsertProcess] using hq
  | cons p rest ih =>
      by_cases hp : p.pid = pid
      · simp [upsertProcess, hp] at hq ⊢
        tauto
      · simp [upsertProcess, hp] at hq ⊢
        rcases hq with hq | hq
        · tauto
        · have h2 := ih (by simpa using hq)
          simp at h2
          tauto

theorem upsert_nodup (pid now : Nat) (self : String) (ps : List BrowserProcess)
    (hnd : nodupKeys ps) : nodupKeys (upsertProcess pid now self ps) := by
  induction ps with
  | nil => simp [upsertProcess, nodupKeys]
  | cons p rest ih =>
      rw [nodupKeys, List.map_cons, List.nodup_cons] at hnd
      by_cases hp : p.pid = pid
      · rw [nodupKeys]
        simp only [upsertProcess, beq_iff_eq, hp, if_pos, List.map_cons,
          List.nodup_cons]
        exact ⟨hp ▸ hnd.1, hnd.2⟩
      · rw [nodupKeys]
        simp only [upsertProcess, beq_iff_eq, hp, if_neg, not_false_iff,
          List.map_cons, List.nodup_cons]
        refine ⟨fun hmem => ?_, ih hnd.2⟩
        rcases upsert_keys pid now self rest p.pid hmem with h | h
        · exact hp h
        · exact hnd.1 h

theorem lookupView_cons (p : BrowserProcess) (ps : List BrowserProcess) (q : Nat) :
    lookupView (p :: ps) q
      = if p.pid = q then some (p.startTime, p.serverInstanceId)
        else lookupView ps q := by
  by_cases h : p.pid = q
  · rw [lookupView, List.find?_cons_of_pos _ (by simp [h]), if_pos h]
    rfl
  · rw [lookupView, List.find?_cons_of_neg _ (by simp [h]), if_neg h]
    rfl

theorem filter_ne_lookup (pid : Nat) (ps : List BrowserProcess) (q : Nat) :
    lookupView (ps.filter (fun p => p.pid != pid)) q
      = if q = pid then none else lookupView ps q := by
  induction ps with
  | nil => by_cases hq : q = pid <;> simp [lookupView, hq]
  | cons p rest ih =>
      rw [List.filter_cons]
      by_cases hp : p.pid = pid
      · rw [if_neg (by simp [hp]), ih]
        by_cases hq : q = pid
        · rw [if_pos hq, if_pos hq]
        · rw [if_neg hq, if_neg hq, lookupView_cons,
            if_neg (fun h : p.pid = q => hq (h ▸ hp))]
      · rw [if_pos (by simp [hp]), lookupView_cons]
        by_cases hpq : p.pid = q
        · have hq : q ≠ pid := fun h2 => hp (hpq.trans h2)
          rw [if_pos hpq, if_neg hq, lookupView_cons, if_pos hpq]
        · rw [if_neg hpq, ih]
          by_cases hq : q = pid
          · rw [if_pos hq, if_pos hq]
          · rw [if_neg hq, if_neg hq, lookupView_cons, if_neg hpq]

theorem filter_nodup (f : BrowserProcess → Bool) (ps : List BrowserProcess)
    (hnd : nodupKeys ps) : nodupKeys (ps.filter f) := by
  have hsub : List.Sublist ((ps.filter f).map (fun p => p.pid))
      (ps.map (fun p => p.pid)) :=
    (List.filter_sublist ps).map (fun p => p.pid)
  exact List.Nodup.sublist hsub hnd

theorem filter_length_all (f : BrowserProcess → Bool) (ps : List BrowserProcess)
    (hlen : (ps.filter f).length = ps.length) : ∀ p ∈ ps, f p = true := by
  induction ps with
  | nil => simp
  | cons p rest ih =>
      rw [List.filter_cons] at hlen
      by_cases hp : f p
      · rw [if_pos (by simpa using hp)] at hlen
        simp only [List.length_cons] at hlen
        intro q hq
        rcases List.mem_cons.mp hq with h | h
        · exact h ▸ hp
        · exact ih (by omega) q h
      · exfalso
        rw [if_neg (by simpa using hp)] at hlen
        have hle := List.length_filter_le f rest
        simp only [List.length_cons] at hlen
        omega

theorem read_register (self : String) (now : Nat) (store : Store) (pid : Nat)
    (hpid : pid ≠ 0) :
    readProcesses (registerProcess self now true store pid)
      = upsertProcess pid now self (readProcesses store) := by
  simp [registerProcess, saveProcesses, hpid, readProcesses]

theorem read_unregister (store : Store) (pid : Nat) (hpid : pid ≠ 0) :
    readProcesses (unregisterProcess true store pid)
      = (readProcesses store).filter (fun p => p.pid != pid) := by
  rw [unregisterProcess, if_neg (by simp [hpid])]
  by_cases hlen : (readProcesses store).length
      = ((readProcesses store).filter (fun p => p.pid != pid)).length
  · rw [if_neg (by simp [hlen])]
    have hall := filter_length_all (fun p => p.pid != pid) (readProcesses store)
      hlen.symm
    exact (List.filter_eq_self.mpr hall).symm
  · rw [if_pos (by simp [hlen])]
    simp [saveProcesses, readProcesses]

theorem register_lookup (self : String) (now : Nat) (store : Store) (pid : Nat)
    (hpid : pid ≠ 0) (q : Nat) :
    lookupView (readProcesses (registerProcess self now true store pid)) q
      = if q = pid then some (now, self) else lookupView (readProcesses store) q := by
  rw [read_register self now store pid hpid, upsert_lookup]

theorem unregister_lookup (store : Store) (pid : Nat) (hpid : pid ≠ 0) (q : Nat) :
    lookupView (readProcesses (unregisterProcess true store pid)) q
      = if q = pid then none else lookupView (readProcesses store) q := by
  rw [read_unregister store pid hpid, filter_ne_lookup]

theorem applyOp_lookup (self : String) (store : Store) (op : RegOp)
    (hpid : opPid op ≠ 0) (q : Nat) :
    lookupView (readProcesses (applyOp self store op)) q
      = specApplyOp self (lookupView (readProcesses store)) op q := by
  cases op with
  | register pid now => exact register_lookup self now store pid hpid q
  | unregister pid => exact unregister_lookup store pid hpid q

theorem applyOps_lookup (self : String) (ops : List RegOp) :
    ∀ store : Store, (∀ op ∈ ops, opPid op ≠ 0) →
      ∀ q, lookupView (readProcesses (applyOps self store ops)) q
        = specReplay self ops (lookupView (readProcesses store)) q := by
  induction ops with
  | nil => intro store _ q; rfl
  | cons op rest ih =>
      intro store hvalid q
      have h1 : opPid op ≠ 0 := hvalid op (List.mem_cons_self _ _)
      have h2 : ∀ o ∈ rest, opPid o ≠ 0 :=
        fun o ho => hvalid o (List.mem_cons.mpr (Or.inr ho))
      have hm : lookupView (readProcesses (applyOp self store op))
          = specApplyOp self (lookupView (readProcesses store)) op :=
        funext (applyOp_lookup self store op h1)
      rw [applyOps, specReplay, ih (applyOp self store op) h2 q, hm]

theorem register_nodup (self : String) (now : Nat) (store : Store) (pid : Nat)
    (hnd : nodupKeys (readProcesses store)) :
    nodupKeys (readProcesses (registerProcess self now true store pid)) := by
  by_cases hpid : pid = 0
  · simpa [registerProcess, hpid] using hnd
  · rw [read_register self now store pid hpid]
    exact upsert_nodup pid now self _ hnd

theorem unregister_nodup (store : Store) (pid : Nat)
    (hnd : nodupKeys (readProcesses store)) :
    nodupKeys (readProcesses (unregisterProcess true store pid)) := by
  by_cases hpid : pid = 0
  · simpa [unregisterProcess, hpid] using hnd
  · rw [read_unregister store pid hpid]
    exact filter_nodup _ _ hnd

theorem applyOps_nodup (self : String) (ops : List RegOp) :
    ∀ store : Store, nodupKeys (readProcesses store) →
      nodupKeys (readProcesses (applyOps self store ops)) := by
  induction ops with
  | nil => intro store hnd; exact hnd
  | cons op rest ih =>
      intro store hnd
      rw [applyOps]
      refine ih _ ?_
      cases op with
      | register pid now => exact register_nodup self now store pid hnd
      | unregister pid => exact unregister_nodup store pid hnd

theorem specApplyOp_comm (self : String) (m : Nat → Option (Nat × String))
    (a b : RegOp) (hab : opPid a ≠ opPid b) (q : Nat) :
    specApplyOp self (specApplyOp self m a) b q
      = specApplyOp self (specApplyOp self m b) a q := by
  cases a <;> cases b <;>
    simp only [specApplyOp, opPid] at hab ⊢ <;>
    split_ifs <;> simp_all

theorem cleanup_store (self : String) (now : Nat) (isRunning killOk : Nat → Bool)
    (store : Store) :
    (cleanupOrphanedProcesses self now isRunning killOk true store).1
      = Store.content
          ((readProcesses store).filter (keepBool self now isRunning killOk)) := by
  simp [cleanupOrphanedProcesses, saveProcesses, cleanupScan_fst]

/-- C1: one reclaim pass over any registry state with fixed probe, kill and
clock outcomes keeps exactly the entries that are running and, when
classified orphaned (foreign owner and older than 10 minutes), survived the
kill; it attempts a kill exactly for the running orphaned entries (none for a
dead entry); and it writes the surviving list back to the store. -/
theorem claim_C1 (self : String) (now : Nat) (isRunning killOk : Nat → Bool)
    (store : Store) :
    (cleanupScan self now isRunning killOk (readProcesses store)).1
        = (readProcesses store).filter (keepBool self now isRunning killOk)
    ∧ (cleanupScan self now isRunning killOk (readProcesses store)).2
        = ((readProcesses store).filter
            (fun p => isRunning p.pid && orphanBool self now p)).map (fun p => p.pid)
    ∧ (cleanupOrphanedProcesses self now isRunning killOk true store).1
        = Store.content
            ((readProcesses store).filter (keepBool self now isRunning killOk)) :=
  ⟨cleanupScan_fst self now isRunning killOk (readProcesses store),
   cleanupScan_snd self now isRunning killOk (readProcesses store),
   cleanup_store self now isRunning killOk store⟩

/-- C2: a reclaim pass never removes an entry whose probe says running when
the entry is owned by the current instance or is at most 10 minutes old. -/
theorem claim_C2 (self : String) (now : Nat) (isRunning killOk : Nat → Bool)
    (store : Store) (p : BrowserProcess)
    (hmem : p ∈ readProcesses store)
    (hrun : isRunning p.pid = true)
    (hsafe : p.serverInstanceId = self ∨ now - p.startTime ≤ 10 * 60 * 1000) :
    p ∈ readProcesses
        (cleanupOrphanedProcesses self now isRunning killOk true store).1 := by
  have hkeep : keepBool self now isRunning killOk p = true := by
    rcases hsafe with h | h
    · simp [keepBool, orphanBool, hrun, h]
    · have h2 : ¬(now - p.startTime > 10 * 60 * 1000) := by omega
      simp [keepBool, orphanBool, hrun, h2]
  rw [cleanup_store, readProcesses]
  exact List.mem_filter.mpr ⟨hmem, hkeep⟩

/-- C2 witness: a concrete running entry owned by the current instance B,
older than the threshold, survives the pass. -/
theorem claim_C2_witness :
    exOwnEntry ∈ readProcesses (Store.content [exOwnEntry])
    ∧ (fun _ => true : Nat → Bool) exOwnEntry.pid = true
    ∧ (exOwnEntry.serverInstanceId = "B"
        ∨ 1300000 - exOwnEntry.startTime ≤ 10 * 60 * 1000)
    ∧ exOwnEntry ∈ readProcesses
        (cleanupOrphanedProcesses "B" 1300000 (fun _ => true) (fun _ => true) true
          (Store.content [exOwnEntry])).1 :=
  ⟨by decide, rfl, Or.inl rfl,
   claim_C2 "B" 1300000 (fun _ => true) (fun _ => true)
     (Store.content [exOwnEntry]) exOwnEntry (by decide) rfl (Or.inl rfl)⟩

/-- C5: the reclaim pass is idempotent: with the same probe results, kill
results and clock, running it on its own output changes nothing. -/
theorem claim_C5 (self : String) (now : Nat) (isRunning killOk : Nat → Bool)
    (store : Store) :
    (cleanupOrphanedProcesses self now isRunning killOk true
        (cleanupOrphanedProcesses self now isRunning killOk true store).1).1
      = (cleanupOrphanedProcesses self now isRunning killOk true store).1 := by
  rw [cleanup_store, cleanup_store]
  simp only [readProcesses]
  congr 1
  exact List.filter_eq_self.mpr fun a ha => (List.mem_filter.mp ha).2

/-- C3 counterexample: the claim quantifies over every register and
unregister call, but registerProcess ignores a falsy pid, while the replay
the claim describes upserts it: after register(0) on an empty registry the
persisted set is still empty, while the replayed set holds an entry for 0. -/
theorem claim_C3_counterexample :
    ¬ (lookupView
          (readProcesses (applyOps "B" (Store.content []) [RegOp.register 0 5])) 0
        = specReplay "B" [RegOp.register 0 5] (lookupView []) 0) := by
  decide

/-- C3 amended: for sequences whose process ids are all nonzero (calls with a
falsy id are rejected by the guard and change nothing) and an initial
registry satisfying the keyed-set invariant, the persisted registry after the
sequence, viewed as a finite map keyed by pid, equals the mathematical replay
(upserts and removals); no duplicate pid is ever created; the result is order
independent for distinct ids and last write wins for a repeated id. -/
theorem claim_C3_amended (self : String) :
    (∀ (init : List BrowserProcess) (ops : List RegOp),
        nodupKeys init → (∀ op ∈ ops, opPid op ≠ 0) →
        nodupKeys (readProcesses (applyOps self (Store.content init) ops))
        ∧ ∀ q, lookupView (readProcesses (applyOps self (Store.content init) ops)) q
            = specReplay self ops (lookupView init) q)
    ∧ (∀ (init : List BrowserProcess) (a b : RegOp),
        opPid a ≠ 0 → opPid b ≠ 0 → opPid a ≠ opPid b →
        ∀ q, lookupView (readProcesses (applyOps self (Store.content init) [a, b])) q
          = lookupView (readProcesses (applyOps self (Store.content init) [b, a])) q)
    ∧ (∀ (init : List BrowserProcess) (pid t1 t2 : Nat), pid ≠ 0 →
        lookupView (readProcesses (applyOps self (Store.content init)
          [RegOp.register pid t1, RegOp.register pid t2])) pid
          = some (t2, self)) := by
  refine ⟨?_, ?_, ?_⟩
  · intro init ops hnd hvalid
    refine ⟨applyOps_nodup self ops _ (by simpa [readProcesses] using hnd),
      fun q => ?_⟩
    have h := applyOps_lookup self ops (Store.content init) hvalid q
    simpa [readProcesses] using h
  · intro init a b ha hb hab q
    have hv1 : ∀ op ∈ [a, b], opPid op ≠ 0 := by
      intro op hop
      simp only [List.mem_cons, List.not_mem_nil, or_false] at hop
      rcases hop with rfl | rfl
      · exact ha
      · exact hb
    have hv2 : ∀ op ∈ [b, a], opPid op ≠ 0 := by
      intro op hop
      simp only [List.mem_cons, List.not_mem_nil, or_false] at hop
      rcases hop with rfl | rfl
      · exact hb
      · exact ha
    rw [applyOps_lookup self [a, b] (Store.content init) hv1 q,
      applyOps_lookup self [b, a] (Store.content init) hv2 q]
    simp only [specReplay]
    exact specApplyOp_comm self _ a b hab q
  · intro init pid t1 t2 hpid
    have hv : ∀ op ∈ [RegOp.register pid t1, RegOp.register pid t2],
        opPid op ≠ 0 := by
      intro op hop
      simp only [List.mem_cons, List.not_mem_nil, or_false] at hop
      rcases hop with rfl | rfl <;> simpa [opPid] using hpid
    rw [applyOps_lookup self _ (Store.content init) hv pid]
    simp [specReplay, specApplyOp]

/-- C3 witness: the main amended conjunct at a concrete registry and a
concrete five call sequence. -/
theorem claim_C3_amended_witness :
    (nodupKeys exInit ∧ ∀ op ∈ exOps, opPid op ≠ 0)
    ∧ (nodupKeys (readProcesses (applyOps "B" (Store.content exInit) exOps))
        ∧ ∀ q, lookupView (readProcesses (applyOps "B" (Store.content exInit) exOps)) q
            = specReplay "B" exOps (lookupView exInit) q) :=
  ⟨⟨by decide, by decide⟩,
   (claim_C3_amended "B").1 exInit exOps (by decide) (by decide)⟩

/-- C4: in the single threaded cooperative model, N shutdown signals starting
from the clean state run the teardown sequence exactly once and leave the
idempotence flag set, and any signal arriving with the flag already set
changes nothing (it logs and returns at once). -/
theorem claim_C4 :
    (∀ n : Nat, 1 ≤ n →
        signalTimes n { isShuttingDown := false, teardownRuns := 0 }
          = { isShuttingDown := true, teardownRuns := 1 })
    ∧ ∀ s : ShutdownState, s.isShuttingDown = true → gracefulShutdown s = s := by
  have hfix : ∀ (m : Nat) (s : ShutdownState), s.isShuttingDown = true →
      signalTimes m s = s := by
    intro m
    induction m with
    | zero => intro s _; rfl
    | succ k ih =>
        intro s hs
        rw [signalTimes, gracefulShutdown, if_pos hs]
        exact ih s hs
  refine ⟨?_, fun s hs => by rw [gracefulShutdown, if_pos hs]⟩
  intro n hn
  cases n with
  | zero => exact absurd hn (by decide)
  | succ m =>
      rw [signalTimes]
      have h0 : gracefulShutdown { isShuttingDown := false, teardownRuns := 0 }
          = { isShuttingDown := true, teardownRuns := 1 } := rfl
      rw [h0]
      exact hfix m _ rfl

/-- C4 witness: three signals collapse into one teardown, and a signal on an
already shutting down state is a no-op. -/
theorem claim_C4_witness :
    (1 ≤ 3
      ∧ signalTimes 3 { isShuttingDown := false, teardownRuns := 0 }
          = { isShuttingDown := true, teardownRuns := 1 })
    ∧ (ShutdownState.isShuttingDown { isShuttingDown := true, teardownRuns := 5 } = true
      ∧ gracefulShutdown { isShuttingDown := true, teardownRuns := 5 }
          = { isShuttingDown := true, teardownRuns := 5 }) :=
  ⟨⟨by decide, claim_C4.1 3 (by decide)⟩,
   ⟨rfl, claim_C4.2 { isShuttingDown := true, teardownRuns := 5 } rfl⟩⟩

/-- C6: calling initialize while the session is already ready is a no-op:
it returns without throwing, performs no reclaim pass, no backend initialize
and no registration, and the persisted registry is unchanged. -/
theorem claim_C6 (self : String) (now : Nat) (isRunning killOk : Nat → Bool)
    (backendOk : Bool) (discoveredPid : Option Nat) (s : ServiceState)
    (h : s.isInitialized = true) :
    serviceInit self now isRunning killOk backendOk discoveredPid s
      = { state := s, threw := false, effects := [] } := by
  rw [serviceInit, if_pos h]

/-- C6 witness: a ready session with one registered entry is untouched by a
second initialize call. -/
theorem claim_C6_witness :
    ServiceState.isInitialized
        { isInitialized := true, store := Store.content [⟨9, 0, "A"⟩] } = true
    ∧ serviceInit "B" 1000 (fun _ => true) (fun _ => true) true (some 9)
          { isInitialized := true, store := Store.content [⟨9, 0, "A"⟩] }
        = { state := { isInitialized := true, store := Store.content [⟨9, 0, "A"⟩] },
            threw := false, effects := [] } :=
  ⟨rfl, claim_C6 "B" 1000 (fun _ => true) (fun _ => true) true (some 9) _ rfl⟩

/-- C7: a process whose command line contains none of the heuristic
signature substrings is never selected as a sweep candidate, hence the kill
loop of the manual sweep never attempts to kill it, for any TTY mode and any
operator response. -/
theorem claim_C7 (processes : List ChromeProcess) (p : ChromeProcess)
    (_hmem : p ∈ processes)
    (hclean : ∀ indicator ∈ whatsAppIndicators,
        strIncludes (strToLower p.command) indicator = false) :
    p ∉ identifyWhatsAppChromeBrowsers processes
    ∧ ∀ (isTTY : Bool) (response : String),
        p ∉ sweepKillList processes isTTY response := by
  have h1 : p ∉ identifyWhatsAppChromeBrowsers processes := by
    intro hp
    have h2 := (List.mem_filter.mp hp).2
    rw [List.any_eq_true] at h2
    rcases h2 with ⟨indicator, hind, hinc⟩
    rw [hclean indicator hind] at hinc
    exact Bool.false_ne_true hinc
  refine ⟨h1, ?_⟩
  intro isTTY response hp
  simp only [sweepKillList] at hp
  split at hp
  · exact List.not_mem_nil p hp
  · split at hp
    · exact List.not_mem_nil p hp
    · exact h1 hp

/-- C7 witness: a plain chrome renderer process is enumerated but never
targeted by the sweep. -/
theorem claim_C7_witness :
    (exChrome ∈ [exChrome]
      ∧ ∀ indicator ∈ whatsAppIndicators,
          strIncludes (strToLower exChrome.command) indicator = false)
    ∧ (exChrome ∉ identifyWhatsAppChromeBrowsers [exChrome]
      ∧ ∀ (isTTY : Bool) (response : String),
          exChrome ∉ sweepKillList [exChrome] isTTY response) :=
  ⟨⟨by decide, by decide⟩, claim_C7 [exChrome] exChrome (by decide) (by decide)⟩

/-- C8: the bookkeeping layer never propagates errors: read degrades an
absent or unparsable store to the empty list, a failed write is swallowed
leaving the store as it was, and the probe and kill helpers return false
instead of rethrowing when the underlying command fails (on Unix a missing
pid surfaces exactly as such a command failure). -/
theorem claim_C8 :
    (readProcesses Store.absent = [] ∧ readProcesses Store.corrupt = [])
    ∧ (∀ (store : Store) (ps : List BrowserProcess),
        saveProcesses false store ps = store)
    ∧ (∀ (exec : String → Except Unit String) (pid : Nat),
        exec (psProbeCmd pid) = Except.error () →
          isProcessRunningUnix exec pid = false)
    ∧ (∀ (exec : String → Except Unit String) (pid : Nat),
        exec (tasklistCmd pid) = Except.error () →
          isProcessRunningWin exec pid = false)
    ∧ (∀ (exec : String → Except Unit String) (pid : Nat),
        exec (killCmd pid) = Except.error () →
          killProcessUnix exec pid = false) := by
  refine ⟨⟨rfl, rfl⟩, fun store ps => rfl, ?_, ?_, ?_⟩ <;>
    · intro exec pid h
      simp [isProcessRunningUnix, isProcessRunningWin, killProcessUnix, h]

/-- C8 witness: with an exec oracle that always fails, probing and killing
pid 5 both report false instead of throwing. -/
theorem claim_C8_witness :
    ((fun _ => Except.error () : String → Except Unit String) (psProbeCmd 5)
        = Except.error ()
      ∧ isProcessRunningUnix (fun _ => Except.error ()) 5 = false)
    ∧ ((fun _ => Except.error () : String → Except Unit String) (tasklistCmd 5)
        = Except.error ()
      ∧ isProcessRunningWin (fun _ => Except.error ()) 5 = false)
    ∧ ((fun _ => Except.error () : String → Except Unit String) (killCmd 5)
        = Except.error ()
      ∧ killProcessUnix (fun _ => Except.error ()) 5 = false) :=
  ⟨⟨rfl, claim_C8.2.2.1 (fun _ => Except.error ()) 5 rfl⟩,
   ⟨rfl, claim_C8.2.2.2.1 (fun _ => Except.error ()) 5 rfl⟩,
   ⟨rfl, claim_C8.2.2.2.2 (fun _ => Except.error ()) 5 rfl⟩⟩

/-- C9 counterexample: one candidate whose kill command fails.  killProcess
swallows its error and returns false, the sweep loop ignores that boolean
and increments anyway, so the reported count is 1 although 0 kills
succeeded. -/
theorem claim_C9_counterexample :
    ¬ (sweepKilledCount (fun _ => Except.error ())
          [{ pid := 77, command := "chrome --headless" }]
        = claimedKilledCount (fun _ => Except.error ())
          [{ pid := 77, command := "chrome --headless" }]) := by
  decide

/-- C9 amended: the summary count reported by the manual sweep equals the
number of candidates whose kill attempt completed without throwing; because
killProcess catches its own errors and returns a boolean that the loop never
inspects, that is every confirmed candidate, including those whose kill
failed. -/
theorem claim_C9_amended (exec : String → Except Unit String)
    (targets : List ChromeProcess) :
    sweepKilledCount exec targets = targets.length := by
  suffices h : ∀ (l : List ChromeProcess) (acc : Nat),
      l.foldl (fun killedCount p =>
        let _killed := killProcessUnix exec p.pid
        killedCount + 1) acc = acc + l.length by
    simpa [sweepKilledCount] using h targets 0
  intro l
  induction l with
  | nil => intro acc; simp
  | cons p rest ih =>
      intro acc
      simp only [List.foldl, List.length_cons, ih]
      omega

/-- C10: register and unregister called with the falsy pid 0 log a warning
and return before touching the store: the persisted registry is unchanged
and nothing is thrown. -/
theorem claim_C10 (self : String) (now : Nat) (writeOk : Bool) (store : Store) :
    registerProcess self now writeOk store 0 = store
    ∧ unregisterProcess writeOk store 0 = store :=
  ⟨rfl, rfl⟩

end McpWhatsapp
